import Mathlib

/-!
Verification development for the whatsmeow client core.

This file gives a shallow embedding of the app-state sync engine
(`src/appstate.go`: `FetchAppState`, `dispatchAppState`) and of the inbound
frame dispatcher (`src/unnamed/part_000`: `handleFrame`, the handler queue),
and proves properties of the embedded code.

Modelling conventions:
- Go methods on `*Client` become Lean functions taking and returning a
  `Client` value; all side effects (event dispatch, store writes, log lines,
  IQ round trips) are collected in an explicit `Effects` record.
- External collaborators (the device store, the network, `DecodePatches`)
  are scripted: their results are data supplied as input, so the embedded
  control flow is exactly the one of the source.
- A Go slice index without a bounds guard is modelled with `List.get?` and
  `Option`: `none` is the runtime panic.
-/

/-! ## JIDs and time -/

/-- Jabber-style identifier, mirroring `types.JID`. -/
structure JID where
  user : String
  agent : Nat
  device : Nat
  server : String
deriving DecidableEq

/-- The zero value of `types.JID` (Go struct zero value). -/
def JID.zero : JID := ⟨"", 0, 0, ""⟩

/-- Split a character list on a separator character (like `strings.Split`). -/
def splitOnChar (c : Char) : List Char → List (List Char)
  | [] => [[]]
  | x :: xs =>
    let r := splitOnChar c xs
    if x = c then [] :: r
    else
      match r with
      | [] => [[x]]
      | y :: ys => (x :: y) :: ys

/-- Decimal digits of a non-empty numeral, accumulator form. -/
def parseNatDigits : List Char → Nat → Option Nat
  | [], acc => some acc
  | c :: cs, acc =>
    if c.isDigit then parseNatDigits cs (acc * 10 + (c.toNat - 48)) else none

/-- Parse a non-empty all-digit character list as a natural number. -/
def parseNatOfChars (l : List Char) : Option Nat :=
  match l with
  | [] => none
  | _ :: _ => parseNatDigits l 0

/-- Modelled from the spec: `types.ParseJID` is not part of the provided
sources; the spec gives the JID shape `user[.agent[:device]]@server`.
On a string that does not fit the shape the parser reports an error and the
JID result is the zero value. -/
def ParseJID (s : String) : JID × Option String :=
  match splitOnChar '@' s.data with
  | [userPart, srv] =>
    match splitOnChar '.' userPart with
    | [u] => (⟨String.mk u, 0, 0, String.mk srv⟩, none)
    | [u, ad] =>
      match splitOnChar ':' ad with
      | [a] =>
        match parseNatOfChars a with
        | some an => (⟨String.mk u, an, 0, String.mk srv⟩, none)
        | none => (JID.zero, some "failed to parse agent")
      | [a, d] =>
        match parseNatOfChars a, parseNatOfChars d with
        | some an, some dn => (⟨String.mk u, an, dn, String.mk srv⟩, none)
        | _, _ => (JID.zero, some "failed to parse agent or device")
      | _ => (JID.zero, some "too many colons in JID user part")
    | _ => (JID.zero, some "too many dots in JID user part")
  | _ => (JID.zero, some "JID does not contain one at sign")

/-- Go `time.Time`: either the zero value or a unix timestamp, which is all
the embedded code distinguishes (`time.Unix(sec, 0)` vs a zero `time.Time`). -/
inductive Time where
  | zero : Time
  | unix (sec : Int) : Time
deriving DecidableEq

/-! ## Protobuf action payloads (`waProto`), with nil-safe getters -/

structure MuteAction where
  muted : Option Bool
  muteEndTimestamp : Option Int
deriving DecidableEq

structure PinAction where
  pinned : Option Bool
deriving DecidableEq

structure ArchiveChatAction where
  archived : Option Bool
deriving DecidableEq

structure ContactAction where
  firstName : Option String
  fullName : Option String
deriving DecidableEq

structure StarAction where
  starred : Option Bool
deriving DecidableEq

structure DeleteMessageForMeAction where
  deleteMedia : Option Bool
deriving DecidableEq

structure PushNameSetting where
  name : Option String
deriving DecidableEq

structure UnarchiveChatsSetting where
  unarchiveChats : Option Bool
deriving DecidableEq

/-- Go protobuf getter `(*MuteAction).GetMuted`: nil receiver gives false. -/
def getMuted (a : Option MuteAction) : Bool :=
  match a with
  | some x => x.muted.getD false
  | none => false

/-- Go protobuf getter `(*MuteAction).GetMuteEndTimestamp`. -/
def getMuteEndTimestamp (a : Option MuteAction) : Int :=
  match a with
  | some x => x.muteEndTimestamp.getD 0
  | none => 0

/-- Go protobuf getter `(*PinAction).GetPinned`. -/
def getPinned (a : Option PinAction) : Bool :=
  match a with
  | some x => x.pinned.getD false
  | none => false

/-- Go protobuf getter `(*ArchiveChatAction).GetArchived`. -/
def getArchived (a : Option ArchiveChatAction) : Bool :=
  match a with
  | some x => x.archived.getD false
  | none => false

/-- Go protobuf getter `(*ContactAction).GetFirstName`. -/
def getFirstName (a : Option ContactAction) : String :=
  match a with
  | some x => x.firstName.getD ""
  | none => ""

/-- Go protobuf getter `(*ContactAction).GetFullName`. -/
def getFullName (a : Option ContactAction) : String :=
  match a with
  | some x => x.fullName.getD ""
  | none => ""

/-- Go protobuf getter `(*PushNameSetting).GetName`. -/
def getPushNameSettingName (a : Option PushNameSetting) : String :=
  match a with
  | some x => x.name.getD ""
  | none => ""

/-- Mirror of `waProto.SyncActionValue`: the typed payload of a mutation,
every sub-message optional, as in the protobuf. -/
structure SyncActionValue where
  timestamp : Option Int
  muteAction : Option MuteAction
  pinAction : Option PinAction
  archiveChatAction : Option ArchiveChatAction
  contactAction : Option ContactAction
  starAction : Option StarAction
  deleteMessageForMeAction : Option DeleteMessageForMeAction
  pushNameSetting : Option PushNameSetting
  unarchiveChatsSetting : Option UnarchiveChatsSetting
deriving DecidableEq

/-- Go protobuf getter `(*SyncActionValue).GetTimestamp`. -/
def SyncActionValue.getTimestamp (v : SyncActionValue) : Int :=
  v.timestamp.getD 0

/-- A `SyncActionValue` with every field unset. -/
def SyncActionValue.unset : SyncActionValue :=
  ⟨none, none, none, none, none, none, none, none, none⟩

/-! ## Mutations -/

/-- Mirror of `waProto.SyncdMutation_SyncdOperation`. -/
inductive SyncdOperation where
  | set : SyncdOperation
  | remove : SyncdOperation
deriving DecidableEq

/-- Mirror of `appstate.Mutation`. -/
structure Mutation where
  operation : SyncdOperation
  index : List String
  action : SyncActionValue
deriving DecidableEq

/-! ## Events (`types/events`) -/

/-- The typed events the embedded code can dispatch (package `events`),
plus the generic `AppState` and the terminal `AppStateSyncComplete`. -/
inductive Event where
  | appState (index : List String) (syncActionValue : SyncActionValue) : Event
  | mute (jid : JID) (timestamp : Time) (action : Option MuteAction) : Event
  | pin (jid : JID) (timestamp : Time) (action : Option PinAction) : Event
  | archive (jid : JID) (timestamp : Time) (action : Option ArchiveChatAction) : Event
  | contact (jid : JID) (timestamp : Time) (action : Option ContactAction) : Event
  | star (chatJID : JID) (messageID : String) (timestamp : Time)
      (action : Option StarAction) (isFromMe : Bool) (senderJID : JID) : Event
  | deleteForMe (chatJID : JID) (messageID : String) (timestamp : Time)
      (action : Option DeleteMessageForMeAction) (isFromMe : Bool) (senderJID : JID) : Event
  | pushNameSetting (timestamp : Time) (action : Option PushNameSetting) : Event
  | unarchiveChatsSetting (timestamp : Time) (action : Option UnarchiveChatsSetting) : Event
  | appStateSyncComplete (name : String) : Event
deriving DecidableEq

/-! ## Device store -/

/-- Store-write operations the app-state engine can perform, recorded with
their arguments. -/
inductive StoreWrite where
  | putMutedUntil (jid : JID) (mutedUntil : Time) : StoreWrite
  | putPinned (jid : JID) (pinned : Bool) : StoreWrite
  | putArchived (jid : JID) (archived : Bool) : StoreWrite
  | putContactName (jid : JID) (firstName fullName : String) : StoreWrite
  | save : StoreWrite
deriving DecidableEq

/-- Scripted chat-settings sub-store: the error each write would return
(`none` means success). -/
structure ChatSettingsStore where
  putMutedUntilResult : Option String
  putPinnedResult : Option String
  putArchivedResult : Option String
deriving DecidableEq

/-- Scripted contacts sub-store. -/
structure ContactsStore where
  putContactNameResult : Option String
deriving DecidableEq

/-- Mirror of `store.Device` as far as the embedded code touches it, with
scripted results for the fallible operations. -/
structure DeviceStore where
  appStateVersion : Nat
  appStateHash : Nat
  deleteAppStateVersionResult : Option String
  getAppStateVersionResult : Option String
  chatSettings : Option ChatSettingsStore
  contacts : Option ContactsStore
  pushName : String
  saveResult : Option String
deriving DecidableEq

/-- Mirror of `store.Device.AppState.DeleteAppStateVersion`: on success the
persisted version and hash for the collection are reset. -/
def DeviceStore.deleteAppStateVersion (s : DeviceStore) : Except String DeviceStore :=
  match s.deleteAppStateVersionResult with
  | some e => Except.error e
  | none => Except.ok { s with appStateVersion := 0, appStateHash := 0 }

/-- Mirror of `store.Device.AppState.GetAppStateVersion`. -/
def DeviceStore.getAppStateVersion (s : DeviceStore) : Except String (Nat × Nat) :=
  match s.getAppStateVersionResult with
  | some e => Except.error e
  | none => Except.ok (s.appStateVersion, s.appStateHash)

/-- The part of `Client` the app-state engine touches. -/
structure Client where
  store : DeviceStore
deriving DecidableEq

/-! ## Effects -/

/-- Observable effects of a run: events dispatched through the event bus,
store writes performed, log lines, and the number of
`fetchAppStatePatches` IQ round trips. -/
structure Effects where
  events : List Event
  storeWrites : List StoreWrite
  logs : List String
  fetches : Nat
deriving DecidableEq

def Effects.empty : Effects := ⟨[], [], [], 0⟩

def Effects.append (a b : Effects) : Effects :=
  ⟨a.events ++ b.events, a.storeWrites ++ b.storeWrites, a.logs ++ b.logs,
    a.fetches + b.fetches⟩

/-- Effects of one `fetchAppStatePatches` call: one IQ round trip. -/
def Effects.oneFetch : Effects := ⟨[], [], [], 1⟩

/-! ## dispatchAppState -/

/-- The JID computed at the top of `dispatchAppState`:
`var jid types.JID; if len(mutation.Index) > 1 { jid, _ = types.ParseJID(mutation.Index[1]) }`. -/
def jidOfIndex (idx : List String) : JID :=
  match idx[1]? with
  | some s => (ParseJID s).1
  | none => JID.zero

/-- Result of one arm of the `switch mutation.Index[0]` statement in
`dispatchAppState`: the event to (maybe) dispatch at the end, the store
writes performed, the error the store returned, log lines emitted inside the
arm, the updated client, and whether the arm executed an early `return`. -/
structure BranchResult where
  eventToDispatch : Option Event
  storeWrites : List StoreWrite
  storeUpdateError : Option String
  logs : List String
  cli : Client
  earlyReturn : Bool

/-- The `switch mutation.Index[0]` statement of `dispatchAppState`.
`none` models a Go slice-index panic. -/
def applyMutationBranch (cli : Client) (m : Mutation) (key : String) (jid : JID)
    (ts : Time) : Option BranchResult :=
  match key with
  | "mute" =>
    let act := m.action.muteAction
    let mutedUntil : Time :=
      if getMuted act then Time.unix (getMuteEndTimestamp act) else Time.zero
    match cli.store.chatSettings with
    | some cs =>
      some ⟨some (Event.mute jid ts act), [StoreWrite.putMutedUntil jid mutedUntil],
        cs.putMutedUntilResult, [], cli, false⟩
    | none => some ⟨some (Event.mute jid ts act), [], none, [], cli, false⟩
  | "pin_v1" =>
    let act := m.action.pinAction
    match cli.store.chatSettings with
    | some cs =>
      some ⟨some (Event.pin jid ts act), [StoreWrite.putPinned jid (getPinned act)],
        cs.putPinnedResult, [], cli, false⟩
    | none => some ⟨some (Event.pin jid ts act), [], none, [], cli, false⟩
  | "archive" =>
    let act := m.action.archiveChatAction
    match cli.store.chatSettings with
    | some cs =>
      some ⟨some (Event.archive jid ts act), [StoreWrite.putArchived jid (getArchived act)],
        cs.putArchivedResult, [], cli, false⟩
    | none => some ⟨some (Event.archive jid ts act), [], none, [], cli, false⟩
  | "contact" =>
    let act := m.action.contactAction
    match cli.store.contacts with
    | some cs =>
      some ⟨some (Event.contact jid ts act),
        [StoreWrite.putContactName jid (getFirstName act) (getFullName act)],
        cs.putContactNameResult, [], cli, false⟩
    | none => some ⟨some (Event.contact jid ts act), [], none, [], cli, false⟩
  | "star" =>
    if m.index.length < 5 then
      some ⟨none, [], none, [], cli, true⟩
    else
      match m.index[2]?, m.index[3]?, m.index[4]? with
      | some msgId, some fromMe, some sender =>
        some ⟨some (Event.star jid msgId ts m.action.starAction (fromMe = "1")
            (if sender ≠ "0" then (ParseJID sender).1 else JID.zero)),
          [], none, [], cli, false⟩
      | _, _, _ => none
  | "deleteMessageForMe" =>
    if m.index.length < 5 then
      some ⟨none, [], none, [], cli, true⟩
    else
      match m.index[2]?, m.index[3]?, m.index[4]? with
      | some msgId, some fromMe, some sender =>
        some ⟨some (Event.deleteForMe jid msgId ts m.action.deleteMessageForMeAction
            (fromMe = "1")
            (if sender ≠ "0" then (ParseJID sender).1 else JID.zero)),
          [], none, [], cli, false⟩
      | _, _, _ => none
  | "setting_pushName" =>
    let newName := getPushNameSettingName m.action.pushNameSetting
    let cli1 : Client := { cli with store := { cli.store with pushName := newName } }
    let saveLogs : List String :=
      match cli1.store.saveResult with
      | some e => ["Failed to save device store after updating push name: " ++ e]
      | none => []
    some ⟨some (Event.pushNameSetting ts m.action.pushNameSetting), [StoreWrite.save],
      none, saveLogs, cli1, false⟩
  | "setting_unarchiveChats" =>
    some ⟨some (Event.unarchiveChatsSetting ts m.action.unarchiveChatsSetting),
      [], none, [], cli, false⟩
  | _ => some ⟨none, [], none, [], cli, false⟩

/-- Mirror of `(*Client).dispatchAppState`. Returns `none` when the Go code
would panic (index out of range on `mutation.Index[0]`); otherwise the
effects performed and the updated client. -/
def dispatchAppState (cli : Client) (m : Mutation) (dispatchEvts : Bool) :
    Option (Effects × Client) :=
  if m.operation = SyncdOperation.set then
    let preEvents : List Event :=
      if dispatchEvts then [Event.appState m.index m.action] else []
    let jid := jidOfIndex m.index
    let ts := Time.unix m.action.getTimestamp
    match m.index[0]? with
    | none => none
    | some key =>
      match applyMutationBranch cli m key jid ts with
      | none => none
      | some br =>
        if br.earlyReturn then
          some (⟨preEvents, [], [], 0⟩, cli)
        else
          let errLogs : List String :=
            match br.storeUpdateError with
            | some e => ["Failed to update device store after app state mutation: " ++ e]
            | none => []
          let postEvents : List Event :=
            match br.eventToDispatch with
            | some ev => if dispatchEvts then [ev] else []
            | none => []
          some (⟨preEvents ++ postEvents, br.storeWrites, br.logs ++ errLogs, 0⟩, br.cli)
  else
    some (Effects.empty, cli)

/-! ## FetchAppState -/

/-- Mirror of `appstate.HashState` as far as `FetchAppState` threads it. -/
structure HashState where
  version : Nat
  hash : Nat
deriving DecidableEq

/-- The part of `appstate.PatchList` that `FetchAppState` reads. -/
structure PatchListRes where
  hasMorePatches : Bool
deriving DecidableEq

/-- One iteration of the `for hasMore` loop, scripted: the result of the
`fetchAppStatePatches` IQ round trip and the result of
`appStateProc.DecodePatches` (the decoded mutations and the new hash state). -/
structure SyncRound where
  fetchResult : Except String PatchListRes
  decodeResult : Except String (List Mutation × HashState)

/-- The `for _, mutation := range mutations` loop of `FetchAppState`:
dispatch each mutation in order, accumulating effects. `none` is a panic
inside `dispatchAppState`. -/
def dispatchList (dispatchEvts : Bool) : List Mutation → Client → Option (Effects × Client)
  | [], cli => some (Effects.empty, cli)
  | m :: ms, cli =>
    match dispatchAppState cli m dispatchEvts with
    | none => none
    | some (e1, cli1) =>
      match dispatchList dispatchEvts ms cli1 with
      | none => none
      | some (e2, cli2) => some (e1.append e2, cli2)

/-- The `for hasMore` loop of `FetchAppState`. The scripted rounds stand for
the network: running out of script while the server still reports more
patches is modelled as a fetch error. -/
def syncLoop (dispatchEvts : Bool) : List SyncRound → Client → HashState →
    Option (Except String Unit × Effects × Client)
  | [], cli, _ =>
    some (Except.error "failed to fetch app state patches: no response",
      Effects.oneFetch, cli)
  | r :: rs, cli, _ =>
    match r.fetchResult with
    | Except.error e =>
      some (Except.error ("failed to fetch app state patches: " ++ e),
        Effects.oneFetch, cli)
    | Except.ok pl =>
      match r.decodeResult with
      | Except.error e =>
        some (Except.error ("failed to decode app state patches: " ++ e),
          Effects.oneFetch, cli)
      | Except.ok (muts, newState) =>
        match dispatchList dispatchEvts muts cli with
        | none => none
        | some (effs, cli1) =>
          if pl.hasMorePatches then
            match syncLoop dispatchEvts rs cli1 newState with
            | none => none
            | some (res, effs2, cli2) =>
              some (res, (Effects.oneFetch.append effs).append effs2, cli2)
          else
            some (Except.ok (), Effects.oneFetch.append effs, cli1)

/-- The tail of `FetchAppState` after the version checks: run the sync loop
with `dispatchEvts := !fullSync || EmitAppStateEventsOnFullSync` and, on
success of a full sync, dispatch the terminal `AppStateSyncComplete` event. -/
def runSync (emitOnFullSync : Bool) (rounds : List SyncRound) (cli : Client)
    (name : String) (fullSync : Bool) (st : HashState) :
    Option (Except String Unit × Effects × Client) :=
  match syncLoop (!fullSync || emitOnFullSync) rounds cli st with
  | none => none
  | some (Except.error e, effs, cli1) => some (Except.error e, effs, cli1)
  | some (Except.ok (), effs, cli1) =>
    if fullSync then
      some (Except.ok (),
        { effs with events := effs.events ++ [Event.appStateSyncComplete name] }, cli1)
    else
      some (Except.ok (), effs, cli1)

/-- The opening of `FetchAppState`: on `fullSync`, delete the persisted
app-state version, wrapping a store failure in the reset error message. -/
def fetchStep1 (cli : Client) (name : String) (fullSync : Bool) : Except String Client :=
  if fullSync then
    match cli.store.deleteAppStateVersion with
    | Except.error e =>
      Except.error ("failed to reset app state " ++ name ++ " version: " ++ e)
    | Except.ok s => Except.ok ({ store := s } : Client)
  else Except.ok cli

/-- Mirror of `(*Client).FetchAppState`. The package-level flag
`EmitAppStateEventsOnFullSync` is the parameter `emitOnFullSync`; the network
and `DecodePatches` are scripted by `rounds`. `none` is a panic. -/
def FetchAppState (emitOnFullSync : Bool) (rounds : List SyncRound) (cli : Client)
    (name : String) (fullSync onlyIfNotSynced : Bool) :
    Option (Except String Unit × Effects × Client) :=
  match fetchStep1 cli name fullSync with
  | Except.error e => some (Except.error e, Effects.empty, cli)
  | Except.ok cli1 =>
    match cli1.store.getAppStateVersion with
    | Except.error e =>
      some (Except.error ("failed to get app state " ++ name ++ " version: " ++ e),
        Effects.empty, cli1)
    | Except.ok (version, hash) =>
      if version = 0 then
        runSync emitOnFullSync rounds cli1 name true ⟨version, hash⟩
      else if onlyIfNotSynced then
        some (Except.ok (), Effects.empty, cli1)
      else
        runSync emitOnFullSync rounds cli1 name fullSync ⟨version, hash⟩

/-! ## The inbound frame dispatcher (`src/unnamed/part_000`) -/

/-- Mirror of `waBinary.Node` as far as the dispatcher reads it: the tag and
the attribute map (only the `id` attribute matters for correlation). -/
structure Node where
  tag : String
  attrs : List (String × String)
deriving DecidableEq

/-- Lookup of the `id` attribute of a node. -/
def Node.getId (n : Node) : Option String :=
  (n.attrs.find? (fun p => p.1 = "id")).map (fun p => p.2)

/-- Modelled from the spec: `(*Client).receiveResponse` is not part of the
provided sources; per the spec, a node is correlated when it has an `id`
attribute and that ID is in the response-waiter map, in which case the waiter
is removed and the node delivered through its channel. -/
def receiveResponse (waiters : List String) (n : Node) : Bool :=
  match n.getId with
  | some i => waiters.contains i
  | none => false

/-- The keys of `cli.nodeHandlers`, fixed in `NewClient`. -/
def nodeHandlerTags : List String :=
  ["message", "receipt", "notification", "success", "stream:error", "iq"]

/-- Mirror of `const handlerQueueSize = 2048`. -/
def handlerQueueSize : Nat := 2048

/-- Which branch of `handleFrame` fired for a frame. -/
inductive FrameAction where
  | unpackError : FrameAction
  | decodeError : FrameAction
  | streamEnd : FrameAction
  | correlated : FrameAction
  | enqueued : FrameAction
  | detachedEnqueue : FrameAction
  | dropped : FrameAction
deriving DecidableEq

/-- Outcome of `handleFrame` on one frame: the branch taken, whether a
response waiter received the node, whether the queue-full warning was
logged, and the handler queue afterwards. A node handed to the detached
goroutine is appended too: the goroutine blocks until the send succeeds, so
the node is eventually enqueued, just not in arrival order. -/
structure FrameOutcome where
  action : FrameAction
  deliveredToWaiter : Bool
  warned : Bool
  queue : List Node
deriving DecidableEq

/-- Result of the unpack and decode steps at the top of `handleFrame`,
scripted (the binary codec is outside the embedded core). -/
inductive DecodedFrame where
  | unpackErr : DecodedFrame
  | decodeErr : DecodedFrame
  | ok (n : Node) : DecodedFrame

/-- Mirror of `(*Client).handleFrame`, from the decoded node on: the
`xmlstreamend` check, response correlation, the non-blocking enqueue with
the detached-goroutine fallback, and the drop branch. The handler queue is
the list `queue` (the channel buffer, capacity `handlerQueueSize`). -/
def handleFrame (waiters : List String) (queue : List Node) (f : DecodedFrame) :
    FrameOutcome :=
  match f with
  | DecodedFrame.unpackErr => ⟨FrameAction.unpackError, false, false, queue⟩
  | DecodedFrame.decodeErr => ⟨FrameAction.decodeError, false, false, queue⟩
  | DecodedFrame.ok node =>
    if node.tag = "xmlstreamend" then
      ⟨FrameAction.streamEnd, false, false, queue⟩
    else if receiveResponse waiters node then
      ⟨FrameAction.correlated, true, false, queue⟩
    else if nodeHandlerTags.contains node.tag then
      if queue.length < handlerQueueSize then
        ⟨FrameAction.enqueued, false, false, queue ++ [node]⟩
      else
        ⟨FrameAction.detachedEnqueue, false, true, queue ++ [node]⟩
    else
      ⟨FrameAction.dropped, false, false, queue⟩

/-- The consumer loop `handlerQueueLoop` invokes `cli.nodeHandlers[node.Tag]`
on each queued node in order; the handler invocations a queue gives rise to
are therefore exactly its nodes, tagged. -/
def handlerInvocations (queue : List Node) : List (String × Node) :=
  queue.map (fun n => (n.tag, n))

/-! ## Statement vocabulary -/

/-- The typed event `dispatchAppState` emits for the four chat-store mutation
kinds, spelled out from the corresponding switch arms. -/
def expectedTypedEvent (m : Mutation) : Event :=
  let jid := jidOfIndex m.index
  let ts := Time.unix m.action.getTimestamp
  match m.index[0]? with
  | some "mute" => Event.mute jid ts m.action.muteAction
  | some "pin_v1" => Event.pin jid ts m.action.pinAction
  | some "archive" => Event.archive jid ts m.action.archiveChatAction
  | some "contact" => Event.contact jid ts m.action.contactAction
  | _ => Event.appState [] m.action

/-! ## Concrete fixtures for witnesses -/

def testClient : Client :=
  ⟨⟨5, 7, none, none, some ⟨none, none, none⟩, some ⟨none⟩, "pn", none⟩⟩

def nilStoreClient : Client :=
  ⟨⟨5, 7, none, none, none, none, "pn", none⟩⟩

def removeMut : Mutation :=
  ⟨SyncdOperation.remove, ["mute", "123@s.whatsapp.net"], SyncActionValue.unset⟩

def starShortMut : Mutation :=
  ⟨SyncdOperation.set, ["star", "chat", "msg"], SyncActionValue.unset⟩

def muteMut : Mutation :=
  ⟨SyncdOperation.set, ["mute", "123@s.whatsapp.net"],
    { SyncActionValue.unset with
        timestamp := some 1700000001,
        muteAction := some ⟨some true, some 1700000000⟩ }⟩

/-! ## Claim C7: only SET mutations have effects -/

/-- C7: for every mutation whose operation is not SET, `dispatchAppState`
is a no-op: no event, no store write, no log, and the client (including
`Store.PushName`) is unchanged. -/
theorem dispatchAppState_nonSet_noop (cli : Client) (m : Mutation) (d : Bool)
    (h : m.operation ≠ SyncdOperation.set) :
    dispatchAppState cli m d = some (Effects.empty, cli) := by
  simp [dispatchAppState, h]

/-- Witness for C7 at a concrete REMOVE mutation. -/
theorem dispatchAppState_nonSet_noop_witness :
    dispatchAppState testClient removeMut true = some (Effects.empty, testClient) :=
  dispatchAppState_nonSet_noop testClient removeMut true (by decide)

/-! ## Claim C2: short-index star and deleteMessageForMe mutations -/

/-- C2 counterexample: a SET `star` mutation with a 3-element index,
processed with event dispatch enabled, does emit an event: the generic
`AppState` event is dispatched before the index-length check, so the claim
that no event is emitted is false. -/
theorem dispatchAppState_short_star_emits_generic_event :
    dispatchAppState testClient starShortMut true
      = some (⟨[Event.appState ["star", "chat", "msg"] SyncActionValue.unset],
          [], [], 0⟩, testClient)
    ∧ ([Event.appState ["star", "chat", "msg"] SyncActionValue.unset] : List Event)
        ≠ [] := by
  exact ⟨rfl, by simp⟩

/-- C2 amended: a SET mutation whose `index[0]` is `star` or
`deleteMessageForMe` and whose index has fewer than 5 elements is discarded:
no typed event (only the generic `AppState` event, which is dispatched before
the length check), no store write, no log, no error, client unchanged. -/
theorem dispatchAppState_short_index_discard (cli : Client) (m : Mutation)
    (hop : m.operation = SyncdOperation.set)
    (hkey : m.index[0]? = some "star" ∨ m.index[0]? = some "deleteMessageForMe")
    (hlen : m.index.length < 5) :
    dispatchAppState cli m true
      = some (⟨[Event.appState m.index m.action], [], [], 0⟩, cli) := by
  rcases hkey with h | h <;>
    simp [dispatchAppState, hop, h, applyMutationBranch, hlen]

/-- Witness for the amended C2 at a concrete short-index star mutation. -/
theorem dispatchAppState_short_index_discard_witness :
    dispatchAppState testClient starShortMut true
      = some (⟨[Event.appState starShortMut.index starShortMut.action], [], [], 0⟩,
          testClient) :=
  dispatchAppState_short_index_discard testClient starShortMut rfl (Or.inl rfl)
    (by decide)

/-! ## Claim C6: nil sub-stores are skipped safely -/

/-- C6: a SET mutation routed to the chat-settings store while
`Store.ChatSettings` is nil (resp. to the contacts store while
`Store.Contacts` is nil) performs no store write, completes without error or
nil dereference, leaves the client unchanged, and still dispatches the
corresponding typed event (after the generic `AppState` event) when event
dispatch is enabled. -/
theorem dispatchAppState_nil_substore_skips (cli : Client) (m : Mutation)
    (hop : m.operation = SyncdOperation.set)
    (hcase :
      ((m.index[0]? = some "mute" ∨ m.index[0]? = some "pin_v1" ∨
          m.index[0]? = some "archive") ∧ cli.store.chatSettings = none) ∨
        (m.index[0]? = some "contact" ∧ cli.store.contacts = none)) :
    dispatchAppState cli m true
      = some (⟨[Event.appState m.index m.action, expectedTypedEvent m], [], [], 0⟩,
          cli) := by
  rcases hcase with ⟨hk | hk | hk, hnil⟩ | ⟨hk, hnil⟩ <;>
    simp [dispatchAppState, hop, hk, applyMutationBranch, hnil, expectedTypedEvent]

/-! ## Claim C10: totality on non-empty indices -/

/-- Helper: `ParseJID` either reports no error or returns the zero JID. -/
theorem ParseJID_error_gives_zero (s : String) :
    (ParseJID s).2 = none ∨ (ParseJID s).1 = JID.zero := by
  unfold ParseJID
  repeat' split
  all_goals simp

/-- Helper: the switch body of `dispatchAppState` never panics: every arm of
`applyMutationBranch` produces a result (the guarded index accesses in the
`star` and `deleteMessageForMe` arms are in bounds). -/
theorem applyMutationBranch_isSome (cli : Client) (m : Mutation) (key : String)
    (jid : JID) (ts : Time) :
    (applyMutationBranch cli m key jid ts).isSome = true := by
  unfold applyMutationBranch
  split
  · split <;> simp
  · split <;> simp
  · split <;> simp
  · split <;> simp
  · split
    · simp
    · rename_i hlen
      split
      · simp
      · rename_i heq
        exfalso
        have h2 : m.index[2]?.isSome = true := by
          rw [Option.isSome_iff_exists]
          have : 2 < m.index.length := by omega
          exact ⟨m.index[2], (List.getElem?_eq_some_iff).mpr ⟨this, rfl⟩⟩
        have h3 : m.index[3]?.isSome = true := by
          rw [Option.isSome_iff_exists]
          have : 3 < m.index.length := by omega
          exact ⟨m.index[3], (List.getElem?_eq_some_iff).mpr ⟨this, rfl⟩⟩
        have h4 : m.index[4]?.isSome = true := by
          rw [Option.isSome_iff_exists]
          have : 4 < m.index.length := by omega
          exact ⟨m.index[4], (List.getElem?_eq_some_iff).mpr ⟨this, rfl⟩⟩
        rcases Option.isSome_iff_exists.mp h2 with ⟨a2, e2⟩
        rcases Option.isSome_iff_exists.mp h3 with ⟨a3, e3⟩
        rcases Option.isSome_iff_exists.mp h4 with ⟨a4, e4⟩
        exact heq a2 a3 a4 e2 e3 e4
  · split
    · simp
    · rename_i hlen
      split
      · simp
      · rename_i heq
        exfalso
        have h2 : m.index[2]?.isSome = true := by
          rw [Option.isSome_iff_exists]
          have : 2 < m.index.length := by omega
          exact ⟨m.index[2], (List.getElem?_eq_some_iff).mpr ⟨this, rfl⟩⟩
        have h3 : m.index[3]?.isSome = true := by
          rw [Option.isSome_iff_exists]
          have : 3 < m.index.length := by omega
          exact ⟨m.index[3], (List.getElem?_eq_some_iff).mpr ⟨this, rfl⟩⟩
        have h4 : m.index[4]?.isSome = true := by
          rw [Option.isSome_iff_exists]
          have : 4 < m.index.length := by omega
          exact ⟨m.index[4], (List.getElem?_eq_some_iff).mpr ⟨this, rfl⟩⟩
        rcases Option.isSome_iff_exists.mp h2 with ⟨a2, e2⟩
        rcases Option.isSome_iff_exists.mp h3 with ⟨a3, e3⟩
        rcases Option.isSome_iff_exists.mp h4 with ⟨a4, e4⟩
        exact heq a2 a3 a4 e2 e3 e4
  · simp
  · simp
  · simp

/-- C10: `dispatchAppState` reads `mutation.Index[0]` without a length
guard, but under the precondition that the index is non-empty it completes
without out-of-bounds access; and a second index element that fails to parse
as a JID never causes an error: the parse error is discarded and the
zero-value JID is what the event and the store write receive. -/
theorem dispatchAppState_nonempty_index_safe (cli : Client) (m : Mutation) (d : Bool)
    (h : m.index ≠ []) :
    (dispatchAppState cli m d).isSome = true ∧
      ∀ s, m.index[1]? = some s → (ParseJID s).2.isSome = true →
        jidOfIndex m.index = JID.zero := by
  constructor
  · by_cases hop : m.operation = SyncdOperation.set
    · obtain ⟨k, hk⟩ : ∃ k, m.index[0]? = some k := by
        cases hm : m.index with
        | nil => exact absurd hm h
        | cons a l => exact ⟨a, by simp [hm]⟩
      have hb := applyMutationBranch_isSome cli m k (jidOfIndex m.index)
        (Time.unix m.action.getTimestamp)
      rcases hab : applyMutationBranch cli m k (jidOfIndex m.index)
          (Time.unix m.action.getTimestamp) with _ | br
      · rw [hab] at hb
        simp at hb
      · unfold dispatchAppState
        rw [if_pos hop]
        simp only [hk, hab]
        split <;> simp
    · simp [dispatchAppState, hop]
  · intro s hs he
    unfold jidOfIndex
    rw [hs]
    rcases ParseJID_error_gives_zero s with h0 | h0
    · rw [h0] at he; simp at he
    · exact h0

/-- Witness for C10 at a concrete mutation whose second index element is not
a parsable JID. -/
theorem dispatchAppState_nonempty_index_safe_witness :
    (dispatchAppState testClient
        ⟨SyncdOperation.set, ["mute", "not a jid"], SyncActionValue.unset⟩ true).isSome
      = true
    ∧ jidOfIndex ["mute", "not a jid"] = JID.zero := by
  have h := dispatchAppState_nonempty_index_safe testClient
    ⟨SyncdOperation.set, ["mute", "not a jid"], SyncActionValue.unset⟩ true (by simp)
  exact ⟨h.1, h.2 "not a jid" rfl (by decide)⟩

/-- Witness for C6 at a concrete mute mutation with no chat-settings store. -/
theorem dispatchAppState_nil_substore_skips_witness :
    dispatchAppState nilStoreClient muteMut true
      = some (⟨[Event.appState muteMut.index muteMut.action, expectedTypedEvent muteMut],
          [], [], 0⟩, nilStoreClient) :=
  dispatchAppState_nil_substore_skips nilStoreClient muteMut rfl
    (Or.inl ⟨Or.inl rfl, rfl⟩)

/-! ## Claim C3: IQ-correlation exclusivity -/

/-- C3: a decoded inbound node that is successfully correlated with a
registered response waiter is handled by the correlation branch only: it is
not enqueued to the handler queue (the queue is unchanged), so no tag
handler is ever invoked for it. -/
theorem handleFrame_correlated_not_enqueued (waiters : List String)
    (queue : List Node) (n : Node)
    (h : (handleFrame waiters queue (DecodedFrame.ok n)).deliveredToWaiter = true) :
    (handleFrame waiters queue (DecodedFrame.ok n)).action = FrameAction.correlated ∧
      (handleFrame waiters queue (DecodedFrame.ok n)).queue = queue ∧
      handlerInvocations (handleFrame waiters queue (DecodedFrame.ok n)).queue
        = handlerInvocations queue := by
  by_cases h1 : n.tag = "xmlstreamend"
  · simp [handleFrame, h1] at h
  · by_cases h2 : receiveResponse waiters n = true
    · simp [handleFrame, h1, h2]
    · simp only [handleFrame, if_neg h1, Bool.not_eq_true] at h
      rw [if_neg (by simp [h2])] at h
      split at h <;> [skip; simp at h]
      split at h <;> simp at h

/-- Witness for C3 at a concrete correlated IQ response node. -/
theorem handleFrame_correlated_not_enqueued_witness :
    (handleFrame ["1.2-3"] [] (DecodedFrame.ok ⟨"iq", [("id", "1.2-3")]⟩)).action
        = FrameAction.correlated ∧
      (handleFrame ["1.2-3"] [] (DecodedFrame.ok ⟨"iq", [("id", "1.2-3")]⟩)).queue = [] ∧
      handlerInvocations
          (handleFrame ["1.2-3"] [] (DecodedFrame.ok ⟨"iq", [("id", "1.2-3")]⟩)).queue
        = handlerInvocations [] :=
  handleFrame_correlated_not_enqueued ["1.2-3"] [] ⟨"iq", [("id", "1.2-3")]⟩ (by decide)

/-! ## Claim C4: handler-queue capacity and the no-drop overflow policy -/

/-- C4 counterexample: a decoded node whose tag ("iq") is a key of the
handler table but whose `id` is registered in the waiter map is neither
enqueued immediately nor handed to the detached task: it goes to the
correlation branch and the queue is unchanged, contrary to the claim's
dichotomy for every handler-table-tagged node. -/
theorem handleFrame_table_tag_not_enqueued_counterexample :
    nodeHandlerTags.contains (Node.mk "iq" [("id", "abc")]).tag = true ∧
      (handleFrame ["abc"] [] (DecodedFrame.ok (Node.mk "iq" [("id", "abc")]))).action
        ≠ FrameAction.enqueued ∧
      (handleFrame ["abc"] [] (DecodedFrame.ok (Node.mk "iq" [("id", "abc")]))).action
        ≠ FrameAction.detachedEnqueue ∧
      (handleFrame ["abc"] [] (DecodedFrame.ok (Node.mk "iq" [("id", "abc")]))).action
        = FrameAction.correlated ∧
      (handleFrame ["abc"] [] (DecodedFrame.ok (Node.mk "iq" [("id", "abc")]))).queue
        = [] := by
  decide

/-- C4 amended: the handler queue has capacity exactly 2048, and a decoded
inbound node whose tag is a key of the handler table and which is not
correlated with a response waiter is never dropped: `handleFrame` appends it
to the queue either immediately (queue not full, no warning) or, when the
queue is full, after logging the warning and handing the node to the
detached blocking task. -/
theorem handleFrame_queue_capacity_no_drop :
    handlerQueueSize = 2048 ∧
      ∀ (waiters : List String) (queue : List Node) (n : Node),
        nodeHandlerTags.contains n.tag = true →
        receiveResponse waiters n = false →
        ((handleFrame waiters queue (DecodedFrame.ok n)).queue = queue ++ [n] ∧
          (queue.length < handlerQueueSize →
            (handleFrame waiters queue (DecodedFrame.ok n)).action = FrameAction.enqueued ∧
              (handleFrame waiters queue (DecodedFrame.ok n)).warned = false) ∧
          (handlerQueueSize ≤ queue.length →
            (handleFrame waiters queue (DecodedFrame.ok n)).action
                = FrameAction.detachedEnqueue ∧
              (handleFrame waiters queue (DecodedFrame.ok n)).warned = true)) := by
  refine ⟨rfl, fun waiters queue n hcon hrr => ?_⟩
  have h1 : ¬n.tag = "xmlstreamend" := by
    intro he
    rw [he] at hcon
    exact absurd hcon (by decide)
  have hmem : n.tag ∈ nodeHandlerTags := by simpa using hcon
  by_cases hlen : queue.length < handlerQueueSize
  · refine ⟨?_, fun _ => ⟨?_, ?_⟩, fun hge => absurd hlen (by omega)⟩ <;>
      simp [handleFrame, h1, hrr, hmem, hlen]
  · refine ⟨?_, fun hlt => absurd hlt hlen, fun _ => ⟨?_, ?_⟩⟩ <;>
      simp [handleFrame, h1, hrr, hmem, hlen]

/-- Witness for the amended C4 at a concrete uncorrelated `message` node. -/
theorem handleFrame_queue_capacity_no_drop_witness :
    (handleFrame [] [] (DecodedFrame.ok (Node.mk "message" []))).queue
        = [Node.mk "message" []] ∧
      (handleFrame [] [] (DecodedFrame.ok (Node.mk "message" []))).action
        = FrameAction.enqueued :=
  ⟨(handleFrame_queue_capacity_no_drop.2 [] [] (Node.mk "message" []) (by decide)
      (by decide)).1,
    ((handleFrame_queue_capacity_no_drop.2 [] [] (Node.mk "message" []) (by decide)
      (by decide)).2.1 (by decide)).1⟩

/-! ## Claim C9: the onlyIfNotSynced early return is effect-free -/

/-- C9: when `fullSync` is false, `onlyIfNotSynced` is true, and the stored
version for the collection is non-zero (and readable), `FetchAppState`
returns nil immediately: no IQ round trip, no event, no store write, no log,
and the client (including the persisted version and hash) is unchanged. -/
theorem fetchAppState_onlyIfNotSynced_noop (emit : Bool) (rounds : List SyncRound)
    (cli : Client) (name : String)
    (hv : cli.store.appStateVersion ≠ 0)
    (hg : cli.store.getAppStateVersionResult = none) :
    FetchAppState emit rounds cli name false true
      = some (Except.ok (), Effects.empty, cli) := by
  unfold FetchAppState
  simp [fetchStep1, DeviceStore.getAppStateVersion, hg, hv]

/-- Witness for C9 at a concrete already-synced client. -/
theorem fetchAppState_onlyIfNotSynced_noop_witness :
    FetchAppState false [] testClient "regular" false true
      = some (Except.ok (), Effects.empty, testClient) :=
  fetchAppState_onlyIfNotSynced_noop false [] testClient "regular" (by decide) rfl

/-! ## Claims C1 and C8: full-sync event silence -/

theorem Effects.append_events (a b : Effects) :
    (a.append b).events = a.events ++ b.events := rfl

theorem Effects.append_storeWrites (a b : Effects) :
    (a.append b).storeWrites = a.storeWrites ++ b.storeWrites := rfl

theorem Effects.append_fetches (a b : Effects) :
    (a.append b).fetches = a.fetches + b.fetches := rfl

/-- Helper: `dispatchAppState` with event dispatch disabled emits no event. -/
theorem dispatchAppState_false_no_events (cli : Client) (m : Mutation)
    (e : Effects) (c : Client)
    (h : dispatchAppState cli m false = some (e, c)) : e.events = [] := by
  unfold dispatchAppState at h
  split at h
  · simp only [Bool.false_eq_true, if_false] at h
    split at h
    · simp at h
    · split at h
      · simp at h
      · split at h
        · simp only [Option.some.injEq, Prod.mk.injEq] at h
          rw [← h.1]
        · simp only [Option.some.injEq, Prod.mk.injEq] at h
          rw [← h.1]
          split <;> rfl
  · simp only [Option.some.injEq, Prod.mk.injEq] at h
    rw [← h.1]
    rfl

/-- Helper: the mutation loop with event dispatch disabled emits no event. -/
theorem dispatchList_false_no_events (ms : List Mutation) :
    ∀ (cli : Client) (e : Effects) (c : Client),
      dispatchList false ms cli = some (e, c) → e.events = [] := by
  induction ms with
  | nil =>
    intro cli e c h
    simp [dispatchList] at h
    rw [← h.1]
    rfl
  | cons m ms ih =>
    intro cli e c h
    unfold dispatchList at h
    split at h
    · simp at h
    · rename_i p hp
      split at h
      · simp at h
      · rename_i q hq
        simp only [Option.some.injEq, Prod.mk.injEq] at h
        rw [← h.1, Effects.append_events,
          dispatchAppState_false_no_events _ _ _ _ hp, ih _ _ _ hq]
        rfl

/-- Helper: the patch-fetch loop with event dispatch disabled emits no
event. -/
theorem syncLoop_false_no_events (rounds : List SyncRound) :
    ∀ (cli : Client) (st : HashState) (r : Except String Unit) (e : Effects)
      (c : Client),
      syncLoop false rounds cli st = some (r, e, c) → e.events = [] := by
  induction rounds with
  | nil =>
    intro cli st r e c h
    simp [syncLoop] at h
    rw [← h.2.1]
    rfl
  | cons rd rs ih =>
    intro cli st r e c h
    unfold syncLoop at h
    split at h
    · simp only [Option.some.injEq, Prod.mk.injEq] at h
      rw [← h.2.1]
      rfl
    · split at h
      · simp only [Option.some.injEq, Prod.mk.injEq] at h
        rw [← h.2.1]
        rfl
      · split at h
        · simp at h
        · rename_i p hp
          split at h
          · split at h
            · simp at h
            · rename_i q hq
              simp only [Option.some.injEq, Prod.mk.injEq] at h
              rw [← h.2.1, Effects.append_events, Effects.append_events,
                dispatchList_false_no_events _ _ _ _ hp, ih _ _ _ _ _ hq]
              rfl
          · simp only [Option.some.injEq, Prod.mk.injEq] at h
            rw [← h.2.1, Effects.append_events,
              dispatchList_false_no_events _ _ _ _ hp]
            rfl

/-- Helper: a successful full-collection sync ends with exactly one
`AppStateSyncComplete` event, all earlier events being the per-mutation ones
(none at all when the events-on-full-sync flag is off). -/
theorem runSync_fullSync_ok_events (emit : Bool) (rounds : List SyncRound)
    (cli : Client) (name : String) (st : HashState) (effs : Effects) (c : Client)
    (h : runSync emit rounds cli name true st = some (Except.ok (), effs, c)) :
    ∃ pre, effs.events = pre ++ [Event.appStateSyncComplete name] ∧
      (emit = false → pre = []) := by
  unfold runSync at h
  simp only [Bool.not_true, Bool.false_or] at h
  split at h
  · simp at h
  · simp at h
  · rename_i effs0 cli1 heq
    rw [if_true] at h
    simp only [Option.some.injEq, Prod.mk.injEq] at h
    refine ⟨effs0.events, ?_, ?_⟩
    · rw [← h.2.1]
    · intro hemit
      rw [hemit] at heq
      exact syncLoop_false_no_events _ _ _ _ _ _ heq

/-- C1: a successful `FetchAppState(name, fullSync := true, _)` with
`EmitAppStateEventsOnFullSync = false` dispatches no per-mutation event at
all (neither the generic `AppState` event nor any typed event) and exactly
one `AppStateSyncComplete` event for the collection. -/
theorem fetchAppState_fullSync_silent (rounds : List SyncRound) (cli : Client)
    (name : String) (oins : Bool) (effs : Effects) (cli2 : Client)
    (h : FetchAppState false rounds cli name true oins
        = some (Except.ok (), effs, cli2)) :
    effs.events = [Event.appStateSyncComplete name] := by
  unfold FetchAppState at h
  split at h
  · simp at h
  · rename_i cli1 heq
    have hv : cli1.store.appStateVersion = 0 := by
      unfold fetchStep1 at heq
      rw [if_pos rfl] at heq
      cases hdel : cli.store.deleteAppStateVersionResult with
      | some e => simp [DeviceStore.deleteAppStateVersion, hdel] at heq
      | none =>
        simp [DeviceStore.deleteAppStateVersion, hdel] at heq
        rw [← heq]
    split at h
    · simp at h
    · rename_i version hash heq2
      have hv0 : version = 0 := by
        unfold DeviceStore.getAppStateVersion at heq2
        split at heq2
        · simp at heq2
        · simp only [Except.ok.injEq, Prod.mk.injEq] at heq2
          rw [← heq2.1, hv]
      rw [hv0, if_pos rfl] at h
      obtain ⟨pre, hpre, hnil⟩ :=
        runSync_fullSync_ok_events false rounds cli1 name ⟨0, hash⟩ effs cli2 h
      rw [hpre, hnil rfl]
      rfl

def c1Rounds : List SyncRound := [⟨Except.ok ⟨false⟩, Except.ok ([], ⟨1, 1⟩)⟩]

def c1Client : Client :=
  ⟨⟨0, 0, none, none, some ⟨none, none, none⟩, some ⟨none⟩, "pn", none⟩⟩

/-- Witness for C1: a concrete one-round full sync with no mutations. -/
theorem fetchAppState_fullSync_silent_witness :
    FetchAppState false c1Rounds testClient "regular" true false
        = some (Except.ok (),
            ⟨[Event.appStateSyncComplete "regular"], [], [], 1⟩, c1Client)
      ∧ (⟨[Event.appStateSyncComplete "regular"], [], [], 1⟩ : Effects).events
        = [Event.appStateSyncComplete "regular"] :=
  ⟨rfl, fetchAppState_fullSync_silent c1Rounds testClient "regular" false
    ⟨[Event.appStateSyncComplete "regular"], [], [], 1⟩ c1Client rfl⟩

/-- C8: if the stored version read for the collection is 0, a successful
`FetchAppState` behaves as a full sync even when called with
`fullSync := false`: the `onlyIfNotSynced` early return is not taken, a
terminal `AppStateSyncComplete` event is emitted, and per-mutation events
are suppressed when `EmitAppStateEventsOnFullSync` is false. -/
theorem fetchAppState_version_zero_full_sync (emit : Bool)
    (rounds : List SyncRound) (cli : Client) (name : String) (oins : Bool)
    (effs : Effects) (cli2 : Client)
    (hv : cli.store.appStateVersion = 0)
    (h : FetchAppState emit rounds cli name false oins
        = some (Except.ok (), effs, cli2)) :
    ∃ pre, effs.events = pre ++ [Event.appStateSyncComplete name] ∧
      (emit = false → pre = []) := by
  unfold FetchAppState at h
  split at h
  · rename_i e heq
    unfold fetchStep1 at heq
    simp [Bool.false_eq_true, if_false] at heq
  · rename_i cli1 heq
    have hcli1 : cli1 = cli := by
      unfold fetchStep1 at heq
      simp only [Bool.false_eq_true, if_false, Except.ok.injEq] at heq
      exact heq.symm
    subst hcli1
    split at h
    · simp at h
    · rename_i version hash heq2
      have hv0 : version = 0 := by
        unfold DeviceStore.getAppStateVersion at heq2
        split at heq2
        · simp at heq2
        · simp only [Except.ok.injEq, Prod.mk.injEq] at heq2
          rw [← heq2.1, hv]
      rw [hv0, if_pos rfl] at h
      exact runSync_fullSync_ok_events emit rounds cli1 name ⟨0, hash⟩ effs cli2 h

def v0Client : Client :=
  ⟨⟨0, 3, none, none, some ⟨none, none, none⟩, some ⟨none⟩, "pn", none⟩⟩

/-! ## Claim C5: store write errors are logged, not raised

The five fallible writes performed while applying a mutation
(`PutMutedUntil`, `PutPinned`, `PutArchived`, `PutContactName`, `Save`) are
scripted by result fields of the store. `withWriteResults` overrides those
five results (and nothing else); the claim is that the run of
`FetchAppState` is unchanged by such an override, except for the log lines. -/

/-- Override the five sub-store write results of a device store, leaving
presence of the sub-stores and every other field alone. -/
def wwrStore (s : DeviceStore) (a b c d e : Option String) : DeviceStore :=
  { s with
      chatSettings := s.chatSettings.map (fun _ => ⟨a, b, c⟩),
      contacts := s.contacts.map (fun _ => ⟨d⟩),
      saveResult := e }

/-- Override the five sub-store write results seen by a client. -/
def withWriteResults (cli : Client) (a b c d e : Option String) : Client :=
  ⟨wwrStore cli.store a b c d e⟩

/-- Forget the log lines of an effects record. -/
def eraseLogs (x : Effects) : Effects :=
  ⟨x.events, x.storeWrites, [], x.fetches⟩

theorem eraseLogs_append (x y : Effects) :
    eraseLogs (x.append y) = (eraseLogs x).append (eraseLogs y) := rfl

/-- Helper: the switch arms behave identically under a write-result
override: same event, same store writes, same early-return flag, and the
resulting client is the override of the unmodified run's client. -/
theorem applyMutationBranch_wwr (cli : Client) (m : Mutation) (key : String)
    (jid : JID) (ts : Time) (a b c d e : Option String) :
    (applyMutationBranch (withWriteResults cli a b c d e) m key jid ts).map
        (fun br => (br.eventToDispatch, br.storeWrites, br.earlyReturn, br.cli))
      = (applyMutationBranch cli m key jid ts).map
        (fun br => (br.eventToDispatch, br.storeWrites, br.earlyReturn,
          withWriteResults br.cli a b c d e)) := by
  unfold applyMutationBranch
  split
  · cases hcs : cli.store.chatSettings <;> simp [withWriteResults, wwrStore, hcs]
  · cases hcs : cli.store.chatSettings <;> simp [withWriteResults, wwrStore, hcs]
  · cases hcs : cli.store.chatSettings <;> simp [withWriteResults, wwrStore, hcs]
  · cases hco : cli.store.contacts <;> simp [withWriteResults, wwrStore, hco]
  · split <;>
      [simp [withWriteResults, wwrStore];
        (split <;> simp [withWriteResults, wwrStore])]
  · split <;>
      [simp [withWriteResults, wwrStore];
        (split <;> simp [withWriteResults, wwrStore])]
  · simp [withWriteResults, wwrStore]
  · simp [withWriteResults, wwrStore]
  · simp [withWriteResults, wwrStore]

/-- Evaluation lemma: `dispatchAppState` on a SET mutation whose switch arm
is known. -/
theorem dispatchAppState_eq_some (cli : Client) (m : Mutation) (dv : Bool)
    (key : String) (br : BranchResult)
    (hop : m.operation = SyncdOperation.set)
    (hidx : m.index[0]? = some key)
    (hab : applyMutationBranch cli m key (jidOfIndex m.index)
        (Time.unix m.action.getTimestamp) = some br) :
    dispatchAppState cli m dv =
      if br.earlyReturn = true then
        some (⟨if dv = true then [Event.appState m.index m.action] else [],
          [], [], 0⟩, cli)
      else
        some (⟨(if dv = true then [Event.appState m.index m.action] else []) ++
            (match br.eventToDispatch with
              | some ev => if dv = true then [ev] else []
              | none => []),
          br.storeWrites,
          br.logs ++ (match br.storeUpdateError with
            | some e2 =>
              ["Failed to update device store after app state mutation: " ++ e2]
            | none => []),
          0⟩, br.cli) := by
  unfold dispatchAppState
  rw [if_pos hop]
  simp only [hidx, hab]

/-- Evaluation lemma: `dispatchAppState` panics when the known switch arm
panics. -/
theorem dispatchAppState_eq_none (cli : Client) (m : Mutation) (dv : Bool)
    (key : String)
    (hop : m.operation = SyncdOperation.set)
    (hidx : m.index[0]? = some key)
    (hab : applyMutationBranch cli m key (jidOfIndex m.index)
        (Time.unix m.action.getTimestamp) = none) :
    dispatchAppState cli m dv = none := by
  unfold dispatchAppState
  rw [if_pos hop]
  simp only [hidx, hab]

/-- Helper: `dispatchAppState` under a write-result override: same panic
behavior, same events, store writes and fetches (only logs may differ), and
the resulting client is the override of the unmodified run's client. -/
theorem dispatchAppState_wwr (cli : Client) (m : Mutation) (dv : Bool)
    (a b c d e : Option String) :
    (dispatchAppState (withWriteResults cli a b c d e) m dv).map
        (fun q => (eraseLogs q.1, q.2))
      = (dispatchAppState cli m dv).map
        (fun q => (eraseLogs q.1, withWriteResults q.2 a b c d e)) := by
  by_cases hop : m.operation = SyncdOperation.set
  · cases hidx : m.index[0]? with
    | none => simp [dispatchAppState, hop, hidx]
    | some key =>
      have hb := applyMutationBranch_wwr cli m key (jidOfIndex m.index)
        (Time.unix m.action.getTimestamp) a b c d e
      cases hab : applyMutationBranch cli m key (jidOfIndex m.index)
          (Time.unix m.action.getTimestamp) with
      | none =>
        rw [hab] at hb
        simp only [Option.map_none', Option.map_eq_none'] at hb
        rw [dispatchAppState_eq_none cli m dv key hop hidx hab,
          dispatchAppState_eq_none (withWriteResults cli a b c d e) m dv key hop
            hidx hb]
        rfl
      | some br =>
        rw [hab] at hb
        rcases h' : applyMutationBranch (withWriteResults cli a b c d e) m key
            (jidOfIndex m.index) (Time.unix m.action.getTimestamp) with _ | br'
        · rw [h'] at hb
          simp at hb
        · rw [h'] at hb
          simp only [Option.map_some', Option.some.injEq, Prod.mk.injEq] at hb
          obtain ⟨h1, h2, h3, h4⟩ := hb
          rw [dispatchAppState_eq_some cli m dv key br hop hidx hab,
            dispatchAppState_eq_some (withWriteResults cli a b c d e) m dv key br'
              hop hidx h']
          by_cases he : br.earlyReturn = true
          · rw [if_pos he, if_pos (by rw [h3]; exact he)]
            simp [eraseLogs]
          · rw [if_neg he, if_neg (by rw [h3]; exact he)]
            simp [eraseLogs, h1, h2, h4]
  · simp [dispatchAppState, hop]

/-- Helper: the mutation loop under a write-result override. -/
theorem dispatchList_wwr (dv : Bool) (a b c d e : Option String) :
    ∀ (ms : List Mutation) (cli : Client),
      (dispatchList dv ms (withWriteResults cli a b c d e)).map
          (fun q => (eraseLogs q.1, q.2))
        = (dispatchList dv ms cli).map
          (fun q => (eraseLogs q.1, withWriteResults q.2 a b c d e)) := by
  intro ms
  induction ms with
  | nil =>
    intro cli
    simp [dispatchList]
  | cons m ms ih =>
    intro cli
    have hd := dispatchAppState_wwr cli m dv a b c d e
    cases hq : dispatchAppState cli m dv with
    | none =>
      rw [hq] at hd
      simp only [Option.map_none', Option.map_eq_none'] at hd
      simp [dispatchList, hq, hd]
    | some q =>
      rw [hq] at hd
      rcases hq' : dispatchAppState (withWriteResults cli a b c d e) m dv with _ | q'
      · rw [hq'] at hd
        simp at hd
      · rw [hq'] at hd
        simp only [Option.map_some', Option.some.injEq, Prod.mk.injEq] at hd
        obtain ⟨he, hc⟩ := hd
        have ihq := ih q.2
        cases hr : dispatchList dv ms q.2 with
        | none =>
          rw [hr] at ihq
          simp only [Option.map_none', Option.map_eq_none'] at ihq
          simp only [dispatchList, hq, hq']
          rw [hc, ihq, hr]
          rfl
        | some r =>
          rw [hr] at ihq
          rcases hr' : dispatchList dv ms (withWriteResults q.2 a b c d e) with _ | r'
          · rw [hr'] at ihq
            simp at ihq
          · rw [hr'] at ihq
            simp only [Option.map_some', Option.some.injEq, Prod.mk.injEq] at ihq
            obtain ⟨hre, hrc⟩ := ihq
            simp only [dispatchList, hq, hq']
            rw [hc, hr', hr]
            simp only [Option.map_some', Option.some.injEq, Prod.mk.injEq]
            exact ⟨by rw [eraseLogs_append, eraseLogs_append, he, hre], hrc⟩

/-- Helper: the patch-fetch loop under a write-result override. -/
theorem syncLoop_wwr (dv : Bool) (a b c d e : Option String) :
    ∀ (rounds : List SyncRound) (cli : Client) (st : HashState),
      (syncLoop dv rounds (withWriteResults cli a b c d e) st).map
          (fun q => (q.1, eraseLogs q.2.1, q.2.2))
        = (syncLoop dv rounds cli st).map
          (fun q => (q.1, eraseLogs q.2.1, withWriteResults q.2.2 a b c d e)) := by
  intro rounds
  induction rounds with
  | nil =>
    intro cli st
    simp [syncLoop]
  | cons rd rs ih =>
    intro cli st
    cases hf : rd.fetchResult with
    | error err => simp [syncLoop, hf]
    | ok pl =>
      cases hdec : rd.decodeResult with
      | error err => simp [syncLoop, hf, hdec]
      | ok pr =>
        obtain ⟨muts, newState⟩ := pr
        have hl := dispatchList_wwr dv a b c d e muts cli
        cases hq : dispatchList dv muts cli with
        | none =>
          rw [hq] at hl
          simp only [Option.map_none', Option.map_eq_none'] at hl
          simp [syncLoop, hf, hdec, hq, hl]
        | some p =>
          rw [hq] at hl
          rcases hq' : dispatchList dv muts (withWriteResults cli a b c d e)
            with _ | p'
          · rw [hq'] at hl
            simp at hl
          · rw [hq'] at hl
            simp only [Option.map_some', Option.some.injEq, Prod.mk.injEq] at hl
            obtain ⟨hpe, hpc⟩ := hl
            by_cases hm : pl.hasMorePatches = true
            · have ihs := ih p.2 newState
              cases hs : syncLoop dv rs p.2 newState with
              | none =>
                rw [hs] at ihs
                simp only [Option.map_none', Option.map_eq_none'] at ihs
                simp only [syncLoop, hf, hdec, hq, hq']
                rw [if_pos hm, if_pos hm, hpc, ihs, hs]
                rfl
              | some t =>
                obtain ⟨res, effs2, cli2⟩ := t
                rw [hs] at ihs
                rcases hs' : syncLoop dv rs (withWriteResults p.2 a b c d e) newState
                  with _ | t'
                · rw [hs'] at ihs
                  simp at ihs
                · obtain ⟨res', effs2', cli2'⟩ := t'
                  rw [hs'] at ihs
                  simp only [Option.map_some', Option.some.injEq,
                    Prod.mk.injEq] at ihs
                  obtain ⟨hres, heff, hcli⟩ := ihs
                  simp only [syncLoop, hf, hdec, hq, hq']
                  rw [if_pos hm, if_pos hm, hpc, hs', hs]
                  simp only [Option.map_some', Option.some.injEq, Prod.mk.injEq]
                  refine ⟨hres, ?_, hcli⟩
                  rw [eraseLogs_append, eraseLogs_append, eraseLogs_append,
                    eraseLogs_append, hpe, heff]
            · simp only [syncLoop, hf, hdec, hq, hq']
              rw [if_neg hm, if_neg hm]
              simp [eraseLogs_append, hpe, hpc]

/-- Helper: `runSync` under a write-result override. -/
theorem runSync_wwr (emit : Bool) (rounds : List SyncRound) (cli : Client)
    (name : String) (fullSync : Bool) (st : HashState) (a b c d e : Option String) :
    (runSync emit rounds (withWriteResults cli a b c d e) name fullSync st).map
        (fun q => (q.1, eraseLogs q.2.1, q.2.2))
      = (runSync emit rounds cli name fullSync st).map
        (fun q => (q.1, eraseLogs q.2.1, withWriteResults q.2.2 a b c d e)) := by
  have hs := syncLoop_wwr (!fullSync || emit) a b c d e rounds cli st
  cases hq : syncLoop (!fullSync || emit) rounds cli st with
  | none =>
    rw [hq] at hs
    simp only [Option.map_none', Option.map_eq_none'] at hs
    simp [runSync, hq, hs]
  | some t =>
    obtain ⟨res, effs, cli1⟩ := t
    rw [hq] at hs
    rcases hq' : syncLoop (!fullSync || emit) rounds (withWriteResults cli a b c d e) st
      with _ | t'
    · rw [hq'] at hs
      simp at hs
    · obtain ⟨res', effs', cli1'⟩ := t'
      rw [hq'] at hs
      simp only [Option.map_some', Option.some.injEq, Prod.mk.injEq] at hs
      obtain ⟨hres, heff, hcli⟩ := hs
      have h1 : effs'.events = effs.events := by
        simpa [eraseLogs] using congrArg Effects.events heff
      have h2 : effs'.storeWrites = effs.storeWrites := by
        simpa [eraseLogs] using congrArg Effects.storeWrites heff
      have h3 : effs'.fetches = effs.fetches := by
        simpa [eraseLogs] using congrArg Effects.fetches heff
      subst hres
      cases res' with
      | error err =>
        simp [runSync, hq, hq', heff, hcli]
      | ok u =>
        cases u
        by_cases hfs : fullSync = true
        · simp only [runSync, hq, hq']
          rw [if_pos hfs, if_pos hfs]
          simp only [Option.map_some', Option.some.injEq, Prod.mk.injEq]
          exact ⟨trivial, by simp [eraseLogs, h1, h2, h3], hcli⟩
        · simp only [runSync, hq, hq']
          rw [if_neg hfs, if_neg hfs]
          simp only [Option.map_some', Option.some.injEq, Prod.mk.injEq]
          exact ⟨trivial, heff, hcli⟩

/-- Helper: the write-result override leaves the delete and read of the
persisted app-state version alone. -/
theorem fetchStep1_wwr (cli : Client) (name : String) (fs : Bool)
    (a b c d e : Option String) :
    fetchStep1 (withWriteResults cli a b c d e) name fs
      = (fetchStep1 cli name fs).map (fun c2 => withWriteResults c2 a b c d e) := by
  unfold fetchStep1
  by_cases hfs : fs = true
  · rw [if_pos hfs, if_pos hfs]
    cases hdel : cli.store.deleteAppStateVersionResult with
    | some err =>
      simp [DeviceStore.deleteAppStateVersion, withWriteResults, wwrStore, hdel,
        Except.map]
    | none =>
      simp [DeviceStore.deleteAppStateVersion, withWriteResults, wwrStore, hdel,
        Except.map]
  · rw [if_neg hfs, if_neg hfs]
    simp [Except.map]

/-- Helper: the write-result override does not affect
`GetAppStateVersion`. -/
theorem getAppStateVersion_wwr (cli : Client) (a b c d e : Option String) :
    (withWriteResults cli a b c d e).store.getAppStateVersion
      = cli.store.getAppStateVersion := by
  cases hg : cli.store.getAppStateVersionResult <;>
    simp [DeviceStore.getAppStateVersion, withWriteResults, wwrStore, hg]

/-- Helper: `FetchAppState` under a write-result override: same result, same
events, store writes and fetches; only the log lines and the override itself
distinguish the final clients. -/
theorem fetchAppState_wwr (emit : Bool) (rounds : List SyncRound) (cli : Client)
    (name : String) (fs oins : Bool) (a b c d e : Option String) :
    (FetchAppState emit rounds (withWriteResults cli a b c d e) name fs oins).map
        (fun q => (q.1, eraseLogs q.2.1, q.2.2))
      = (FetchAppState emit rounds cli name fs oins).map
        (fun q => (q.1, eraseLogs q.2.1, withWriteResults q.2.2 a b c d e)) := by
  unfold FetchAppState
  rw [fetchStep1_wwr]
  cases hst : fetchStep1 cli name fs with
  | error err => simp [Except.map]
  | ok cli1 =>
    simp only [Except.map]
    rw [getAppStateVersion_wwr]
    cases hgv : cli1.store.getAppStateVersion with
    | error err => simp
    | ok vh =>
      obtain ⟨version, hash⟩ := vh
      simp only
      by_cases hv : version = 0
      · rw [if_pos hv, if_pos hv]
        exact runSync_wwr emit rounds cli1 name true ⟨version, hash⟩ a b c d e
      · rw [if_neg hv, if_neg hv]
        by_cases ho : oins = true
        · rw [if_pos ho, if_pos ho]
          simp
        · rw [if_neg ho, if_neg ho]
          exact runSync_wwr emit rounds cli1 name fs ⟨version, hash⟩ a b c d e

/-- The externally observable outcome of a `FetchAppState` run: its return
value, the events dispatched, the store writes performed, and the number of
IQ round trips. -/
def runView (q : Except String Unit × Effects × Client) :
    Except String Unit × List Event × List StoreWrite × Nat :=
  (q.1, q.2.1.events, q.2.1.storeWrites, q.2.1.fetches)

/-- C5: errors returned by the sub-store writes performed while applying SET
mutations (`PutMutedUntil`, `PutPinned`, `PutArchived`, `PutContactName`,
and `Save` after a push-name update) are logged, not raised: overriding those
five write results arbitrarily changes neither the return value of
`FetchAppState`, nor the events dispatched, nor the store writes performed
(so the remaining mutations of the batch are still processed), nor the
number of IQ round trips. -/
theorem fetchAppState_store_errors_not_raised (emit : Bool)
    (rounds : List SyncRound) (cli : Client) (name : String) (fs oins : Bool)
    (a b c d e : Option String) :
    (FetchAppState emit rounds (withWriteResults cli a b c d e) name fs oins).map
        runView
      = (FetchAppState emit rounds cli name fs oins).map runView := by
  have h := fetchAppState_wwr emit rounds cli name fs oins a b c d e
  cases hA : FetchAppState emit rounds (withWriteResults cli a b c d e) name fs oins
    with
  | none =>
    rw [hA] at h
    cases hB : FetchAppState emit rounds cli name fs oins with
    | none => rfl
    | some q =>
      rw [hB] at h
      simp at h
  | some p =>
    rw [hA] at h
    cases hB : FetchAppState emit rounds cli name fs oins with
    | none =>
      rw [hB] at h
      simp at h
    | some q =>
      rw [hB] at h
      obtain ⟨p1, pe, pc⟩ := p
      obtain ⟨q1, qe, qc⟩ := q
      simp only [Option.map_some', Option.some.injEq, Prod.mk.injEq] at h
      obtain ⟨h1, h2, h3⟩ := h
      simp only [Option.map_some', Option.some.injEq, Prod.mk.injEq, runView]
      refine ⟨h1, ?_, ?_, ?_⟩
      · simpa [eraseLogs] using congrArg Effects.events h2
      · simpa [eraseLogs] using congrArg Effects.storeWrites h2
      · simpa [eraseLogs] using congrArg Effects.fetches h2

/-- Witness for C8: a concrete client whose stored version is 0, called with
`fullSync := false` and `onlyIfNotSynced := true`. -/
theorem fetchAppState_version_zero_full_sync_witness :
    ∃ pre,
      (⟨[Event.appStateSyncComplete "critical_block"], [], [], 1⟩ : Effects).events
          = pre ++ [Event.appStateSyncComplete "critical_block"] ∧
        (false = false → pre = []) :=
  fetchAppState_version_zero_full_sync false c1Rounds v0Client "critical_block"
    true ⟨[Event.appStateSyncComplete "critical_block"], [], [], 1⟩ v0Client rfl rfl
